import Mathlib

/-!
Verification of the dlisio core (src/python/dlisio/core.cpp and
src/python/dlisio/ext.cpp) against its natural-language specification.

The repository's C++ sources are shallowly embedded below.  File streams
(`std::FILE*`) become a pure `FStream` (a byte list plus a read position);
fallible operations return `Except DErr`; unbounded `while (true)` loops
take a fuel argument and report exhaustion as `DErr.fuelOut`.  Python
objects (`py::dict` columns, `py::list` rows) are reference types in
pybind11, so they are embedded with an explicit store: a column dict is a
`Col`, a live dict is an index into a `List Col`, and copying a row copies
indices, never columns — exactly the aliasing the C++ has.

The leaf decoders `dlis_*` live in the dlisio C library, which is not part
of src/; each is modelled from the spec (section 4.1 and 6.1) and marked so
in its doc comment.  Everything else is translated from the two C++ files.
-/

namespace DlisioModel

/-- A byte read through a `char`/`uint8_t` lvalue: the C sources only ever
see the low 8 bits. -/
def readByte (mem : Nat → Nat) (i : Nat) : Nat := mem i % 256

/-- A `std::FILE*` opened for reading: the underlying bytes plus the current
read position. -/
structure FStream where
  data : List Nat
  pos : Nat
deriving Repr, DecidableEq

/-- Errors surfaced by the embedded code: `eofErr` is the C++ `eof_error`
("unexpected EOF"), `ioErr` is `io_error`, `valueErr` is `py::value_error`
with its message, `ub` marks executions that are undefined behaviour in the
C++ (e.g. `std::vector::erase` past the front), and `fuelOut` reports that
the fuel given to an unbounded source loop ran out. -/
inductive DErr
| eofErr
| ioErr (msg : String)
| valueErr (msg : String)
| ub (msg : String)
| fuelOut
deriving Repr, DecidableEq

abbrev DRes (α : Type) := Except DErr α

/-- Function `getbytes` from both sources: `fread` of `n` bytes; a short read at the
end of the file raises `eof_error`. -/
def getbytes (n : Nat) (s : FStream) : DRes (List Nat × FStream) :=
  if s.pos + n ≤ s.data.length then
    .ok (((s.data.drop s.pos).take n).map (fun b => b % 256), ⟨s.data, s.pos + n⟩)
  else
    .error .eofErr

/-- Operation `std::fseek(fp, off, SEEK_CUR)`: moves the position; seeking before the
start of the file fails. Seeking past the end is allowed (later reads fail). -/
def fseekCur (off : Int) (s : FStream) : DRes FStream :=
  if (s.pos : Int) + off < 0 then .error (.ioErr "seek")
  else .ok ⟨s.data, ((s.pos : Int) + off).toNat⟩

/-- Struct `segheader` of both sources. `len` is kept as `Int` because the
C++ later computes `seg.len - 4` on an `int`. -/
structure segheader where
  attrs : Nat
  len : Int
  type : Nat
deriving Repr, DecidableEq

/-- Modelled from the spec: `dlis_lrsh` (dlisio C library, not under src/).
Spec 6.1: "LRSH (4 bytes): big-endian u16 length (including the 4),
u8 attributes, u8 type". It cannot fail. -/
def dlis_lrsh (b : List Nat) : segheader :=
  ⟨b.getD 2 0, (256 * b.getD 0 0 + b.getD 1 0 : Int), b.getD 3 0⟩

/-- Function `segment_header` from both sources: read 4 bytes and unpack the LRSH. -/
def segment_header (s : FStream) : DRes (segheader × FStream) :=
  match getbytes 4 s with
  | .error e => .error e
  | .ok (buf, s') => .ok (dlis_lrsh buf, s')

/-- Modelled from the spec: `dlis_vrl` (dlisio C library, not under src/).
Spec 6.1: "VRL (4 bytes): big-endian u16 length (including the 4),
u8 format version, u8 reserved (0xFF)"; scenario S2 places the reserved
0xFF byte before the version byte.  A reserved byte that is not 0xFF is a
decode failure. -/
def dlis_vrl (b : List Nat) : Option (Int × Nat) :=
  if b.getD 2 0 = 255 then some ((256 * b.getD 0 0 + b.getD 1 0 : Int), b.getD 3 0)
  else none

/-- Function `visible_length` from both sources: read 4 bytes, unpack the VRL, warn
(non-fatally) when the format version is not 1, return the length.  The
warning channel is the returned list of messages. -/
def visible_length (s : FStream) : DRes ((Int × List String) × FStream) :=
  match getbytes 4 s with
  | .error e => .error e
  | .ok (buf, s') =>
    match dlis_vrl buf with
    | none => .error (.valueErr "unable to parse visible record label")
    | some (len, version) =>
      let warns := if version ≠ 1 then ["VRL DLIS not v1, was " ++ toString version] else []
      .ok ((len, warns), s')

/-- The decoded segment-attributes flag byte. -/
structure segattrs where
  isexplicit : Bool
  has_predecessor : Bool
  has_successor : Bool
  is_encrypted : Bool
  has_encryption_packet : Bool
  has_checksum : Bool
  has_trailing_length : Bool
  has_padding : Bool
deriving Repr, DecidableEq

/-- Modelled from the spec: `dlis_segment_attributes` (dlisio C library, not
under src/).  Spec 6.1: "Segment attributes byte (bit order MSB→LSB):
is_eflr, has_predecessor, has_successor, is_encrypted,
has_encryption_packet, has_checksum, has_trailing_length, has_padding". -/
def dlis_segment_attributes (a : Nat) : segattrs :=
  ⟨a.testBit 7, a.testBit 6, a.testBit 5, a.testBit 4,
   a.testBit 3, a.testBit 2, a.testBit 1, a.testBit 0⟩

/-- Struct `bookmark` of both sources.  `isexplicit` is an `int` used only
as a flag; it is embedded as the Bool it carries. -/
structure bookmark where
  pos : Nat
  residual : Int := 0
  isexplicit : Bool := false
deriving Repr, DecidableEq

/-- The loop of `mark` from both sources (core.cpp lines 184-218, ext.cpp
lines 171-207).  Per segment: read the LRSH, decrement `remaining` by the
segment length (no underflow check), overwrite the bookmark's `isexplicit`
with this segment's flag, seek past the body, and stop when the segment has
no successor.  When `remaining` is not positive, read a fresh VRL and
refill `remaining` (any leftover value is discarded by the assignment). -/
def markLoop : Nat → FStream → bookmark → Int → List String →
    DRes ((bookmark × Int × List String) × FStream)
  | 0, _, _, _, _ => .error .fuelOut
  | fuel + 1, s, mk, remaining, warns =>
    if remaining > 0 then
      match segment_header s with
      | .error e => .error e
      | .ok (seg, s') =>
        let remaining' := remaining - seg.len
        let a := dlis_segment_attributes seg.attrs
        let mk' := { mk with isexplicit := a.isexplicit }
        match fseekCur (seg.len - 4) s' with
        | .error e => .error e
        | .ok s'' =>
          if a.has_successor then markLoop fuel s'' mk' remaining' warns
          else .ok ((mk', remaining', warns), s'')
    else
      match visible_length s with
      | .error e => .error e
      | .ok ((len, w), s') => markLoop fuel s' mk (len - 4) (warns ++ w)

/-- Function `mark(fp, remaining)` from both sources: record the current position and
the incoming residual into a fresh bookmark, then run the indexing loop. -/
def mark (fuel : Nat) (s : FStream) (remaining : Int) :
    DRes ((bookmark × Int × List String) × FStream) :=
  markLoop fuel s ⟨s.pos, remaining, false⟩ remaining []

/-- Call `cat.erase(cat.end() - n, cat.end())`: drops the last `n` bytes; erasing
more bytes than the buffer holds is undefined behaviour in the C++. -/
def eraseEnd (n : Nat) (cat : List Nat) : DRes (List Nat) :=
  if n ≤ cat.length then .ok (cat.take (cat.length - n))
  else .error (.ub "vector erase before begin")

/-- Line `if( has_trailing_length ) cat.erase( cat.end() - 2, cat.end() );`
of both sources. -/
def stripTL (a : segattrs) (cat : List Nat) : DRes (List Nat) :=
  if a.has_trailing_length then eraseEnd 2 cat else .ok cat

/-- Line `if( has_checksum ) cat.erase( cat.end() - 2, cat.end() );` of
both sources. -/
def stripCS (a : segattrs) (cat : List Nat) : DRes (List Nat) :=
  if a.has_checksum then eraseEnd 2 cat else .ok cat

/-- The padding block of both sources: `dlis_ushort` reads the last byte of
the buffer as the pad count, then the last `padbytes` bytes are erased. -/
def stripPad (a : segattrs) (cat : List Nat) : DRes (List Nat) :=
  if a.has_padding then
    match cat.getLast? with
    | Option.none => .error (.ub "pad count read from empty buffer")
    | some padbytes => eraseEnd padbytes cat
  else .ok cat

/-- The tail-stripping block of `catrecord` (core.cpp lines 265-271) and
`getrecord` (ext.cpp lines 250-256), applied to the whole accumulated
buffer in source order: trailing length, checksum, then padding. -/
def stripCat (a : segattrs) (cat : List Nat) : DRes (List Nat) :=
  match stripTL a cat with
  | .error e => .error e
  | .ok cat1 =>
    match stripCS a cat1 with
    | .error e => .error e
    | .ok cat2 => stripPad a cat2

/-- The loop of `catrecord` (core.cpp lines 226-278).  Reads each segment
header, checks residual underflow ("underflow in cat-record"), appends the
segment body to the accumulated buffer, strips the tail, and stops at a
segment without successor; a non-positive residual refills from a VRL.
`is_encrypted` is decoded but never consulted, exactly as in the source.
ext.cpp's `getrecord` (lines 215-263) is the same loop without the
underflow check. -/
def catLoop : Nat → FStream → List Nat → Int → List String →
    DRes ((List Nat × List String) × FStream)
  | 0, _, _, _, _ => .error .fuelOut
  | fuel + 1, s, cat, remaining, warns =>
    if remaining > 0 then
      match segment_header s with
      | .error e => .error e
      | .ok (seg, s') =>
        let remaining' := remaining - seg.len
        if remaining' < 0 then .error (.valueErr "underflow in cat-record")
        else
          let a := dlis_segment_attributes seg.attrs
          if seg.len < 4 then .error (.ub "negative vector resize")
          else
            match getbytes (seg.len - 4).toNat s' with
            | .error e => .error e
            | .ok (body, s'') =>
              match stripCat a (cat ++ body) with
              | .error e => .error e
              | .ok cat' =>
                if a.has_successor then catLoop fuel s'' cat' remaining' warns
                else .ok ((cat', warns), s'')
    else
      match visible_length s with
      | .error e => .error e
      | .ok ((len, w), s') => catLoop fuel s' cat (len - 4) (warns ++ w)

/-- Function `catrecord(fp, remaining)` from core.cpp. -/
def catrecord (fuel : Nat) (s : FStream) (remaining : Int) :
    DRes ((List Nat × List String) × FStream) :=
  catLoop fuel s [] remaining []

/-! ## Primitive value decoders

The decoders operate on a memory `mem : Nat → Nat` (the assembled payload
viewed through `char*`; past-the-end reads are undefined behaviour in C++
and read as zero in the model) and a cursor position.  Crucially — and this
is what the source really does — none of them receives the payload end:
the `const char*&` interface of src carries no tail bound, so a decoder can
only advance by whatever the length prefix dictates. -/

/-- A decoded primitive value as it appears in the Python output.  The
float-family values (spec 4.1: FSHORT … CDOUBL) are kept abstract as their
representation code together with the consumed big-endian bytes, since no
claim inspects floating-point arithmetic; all integer and text codes are
decoded in full. -/
inductive PScalar
| int (i : Int)
| bool (b : Bool)
| str (s : List Nat)
| real (code : Nat) (bytes : List Nat)
| obname (origin : Int) (copy : Nat) (id : List Nat)
| dtime (y tz m d h mn sec ms : Nat)
deriving Repr, DecidableEq

/-- A Python value held in a column's `value` slot: `py::none`, a bare
scalar (ext.cpp's `array` unwraps singleton lists), or a list of scalars. -/
inductive PVal
| none
| scalar (s : PScalar)
| list (l : List PScalar)
deriving Repr, DecidableEq

/-- Modelled from the spec: `dlis_ushort` (dlisio C library, not under
src/).  Spec 4.1: USHORT, unsigned 1 byte. -/
def dlis_ushort (mem : Nat → Nat) (pos : Nat) : Nat × Nat :=
  (readByte mem pos, pos + 1)

/-- Modelled from the spec: `dlis_unorm` (dlisio C library, not under
src/).  Spec 4.1: UNORM, unsigned 2 bytes, big-endian. -/
def dlis_unorm (mem : Nat → Nat) (pos : Nat) : Nat × Nat :=
  (256 * readByte mem pos + readByte mem (pos + 1), pos + 2)

/-- Modelled from the spec: `dlis_ulong` (dlisio C library, not under
src/).  Spec 4.1: ULONG, unsigned 4 bytes, big-endian. -/
def dlis_ulong (mem : Nat → Nat) (pos : Nat) : Nat × Nat :=
  (2 ^ 24 * readByte mem pos + 2 ^ 16 * readByte mem (pos + 1)
    + 2 ^ 8 * readByte mem (pos + 2) + readByte mem (pos + 3), pos + 4)

/-- Modelled from the spec: `dlis_sshort` (dlisio C library, not under
src/).  Spec 4.1: SSHORT, signed 1 byte (two's complement). -/
def dlis_sshort (mem : Nat → Nat) (pos : Nat) : Int × Nat :=
  let b := readByte mem pos
  (if b < 128 then (b : Int) else (b : Int) - 256, pos + 1)

/-- Modelled from the spec: `dlis_snorm` (dlisio C library, not under
src/).  Spec 4.1: SNORM, signed 2 bytes, big-endian two's complement. -/
def dlis_snorm (mem : Nat → Nat) (pos : Nat) : Int × Nat :=
  let (v, pos') := dlis_unorm mem pos
  (if v < 2 ^ 15 then (v : Int) else (v : Int) - 2 ^ 16, pos')

/-- Modelled from the spec: `dlis_slong` (dlisio C library, not under
src/).  Spec 4.1: SLONG, signed 4 bytes, big-endian two's complement. -/
def dlis_slong (mem : Nat → Nat) (pos : Nat) : Int × Nat :=
  let (v, pos') := dlis_ulong mem pos
  (if v < 2 ^ 31 then (v : Int) else (v : Int) - 2 ^ 32, pos')

/-- Modelled from the spec: `dlis_uvari` (dlisio C library, not under
src/).  Spec 4.1: "unsigned variable-length integer: 1, 2, or 4 bytes
determined by the top bits of the first byte (00⇒1 byte, 10⇒2 bytes,
11⇒4 bytes; mask off the length-tag bits)", confirmed by scenario S3. -/
def dlis_uvari (mem : Nat → Nat) (pos : Nat) : Int × Nat :=
  let b0 := readByte mem pos
  if b0 < 128 then ((b0 : Int), pos + 1)
  else if b0 < 192 then (((b0 - 128) * 256 + readByte mem (pos + 1) : Nat), pos + 2)
  else (((b0 - 192) * 2 ^ 24 + readByte mem (pos + 1) * 2 ^ 16
          + readByte mem (pos + 2) * 2 ^ 8 + readByte mem (pos + 3) : Nat), pos + 4)

/-- Modelled from the spec: `dlis_ident` (dlisio C library, not under
src/).  Spec 4.1: "IDENT: 1-byte length prefix then ASCII payload (≤255)".
Receives no tail bound — see the src call sites. -/
def dlis_ident (mem : Nat → Nat) (pos : Nat) : List Nat × Nat :=
  let len := readByte mem pos
  ((List.range len).map (fun i => readByte mem (pos + 1 + i)), pos + 1 + len)

/-- Modelled from the spec: `dlis_ascii` (dlisio C library, not under
src/).  Spec 4.1: "ASCII: UVARI length prefix then ASCII payload". -/
def dlis_ascii (mem : Nat → Nat) (pos : Nat) : List Nat × Nat :=
  let (len, pos') := dlis_uvari mem pos
  ((List.range len.toNat).map (fun i => readByte mem (pos' + i)), pos' + len.toNat)

/-- Modelled from the spec: `dlis_dtime` (dlisio C library, not under
src/).  Spec 4.1: "DTIME: Y (1 byte, +1900), TZ/M packed, D, H, MN, S,
MS (2 bytes)", 8 bytes total. -/
def dlis_dtime (mem : Nat → Nat) (pos : Nat) : PScalar × Nat :=
  (.dtime (readByte mem pos + 1900) (readByte mem (pos + 1) / 16)
          (readByte mem (pos + 1) % 16) (readByte mem (pos + 2))
          (readByte mem (pos + 3)) (readByte mem (pos + 4)) (readByte mem (pos + 5))
          (256 * readByte mem (pos + 6) + readByte mem (pos + 7)), pos + 8)

/-- Modelled from the spec: `dlis_status` (dlisio C library, not under
src/).  Spec 4.1: "STATUS: 1 byte boolean (0=false, nonzero=true)". -/
def dlis_status (mem : Nat → Nat) (pos : Nat) : Nat × Nat :=
  (readByte mem pos, pos + 1)

/-- Modelled from the spec: the OBNAME decoder of typeconv.cpp (included by
core.cpp but not under src/).  Spec 4.1: "OBNAME: UVARI origin, USHORT copy
number, IDENT id". -/
def dlis_obname (mem : Nat → Nat) (pos : Nat) : PScalar × Nat :=
  let (origin, p1) := dlis_uvari mem pos
  let (copy, p2) := dlis_ushort mem p1
  let (id, p3) := dlis_ident mem p2
  (.obname origin copy id, p3)

/-- Modelled from the spec: the fixed-width float-family decoders of
typeconv.cpp (not under src/).  Spec 4.1 gives each code's byte width; the
value is kept as the consumed bytes. -/
def dlis_floatlike (code width : Nat) (mem : Nat → Nat) (pos : Nat) : PScalar × Nat :=
  (.real code ((List.range width).map (fun i => readByte mem (pos + i))), pos + width)

/-- One `switch` arm of core.cpp's `array` (lines 293-321): decode a single
value of representation code `reprc`.  Unknown codes make the whole arm
throw "unknown representation code". -/
def decode1core (reprc : Int) (mem : Nat → Nat) (pos : Nat) : Option (PScalar × Nat) :=
  if reprc = 1 then some (dlis_floatlike 1 2 mem pos)        -- FSHORT
  else if reprc = 2 then some (dlis_floatlike 2 4 mem pos)   -- FSINGL
  else if reprc = 3 then some (dlis_floatlike 3 8 mem pos)   -- FSING1
  else if reprc = 4 then some (dlis_floatlike 4 12 mem pos)  -- FSING2
  else if reprc = 5 then some (dlis_floatlike 5 4 mem pos)   -- ISINGL
  else if reprc = 6 then some (dlis_floatlike 6 4 mem pos)   -- VSINGL
  else if reprc = 7 then some (dlis_floatlike 7 8 mem pos)   -- FDOUBL
  else if reprc = 8 then some (dlis_floatlike 8 16 mem pos)  -- FDOUB1
  else if reprc = 9 then some (dlis_floatlike 9 24 mem pos)  -- FDOUB2
  else if reprc = 10 then some (dlis_floatlike 10 8 mem pos) -- CSINGL
  else if reprc = 11 then some (dlis_floatlike 11 16 mem pos) -- CDOUBL
  else if reprc = 12 then some (let (v, p) := dlis_sshort mem pos; (.int v, p))
  else if reprc = 13 then some (let (v, p) := dlis_snorm mem pos; (.int v, p))
  else if reprc = 14 then some (let (v, p) := dlis_slong mem pos; (.int v, p))
  else if reprc = 15 then some (let (v, p) := dlis_ushort mem pos; (.int v, p))
  else if reprc = 16 then some (let (v, p) := dlis_unorm mem pos; (.int v, p))
  else if reprc = 17 then some (let (v, p) := dlis_ulong mem pos; (.int v, p))
  else if reprc = 18 then some (let (v, p) := dlis_uvari mem pos; (.int v, p))
  else if reprc = 19 then some (let (v, p) := dlis_ident mem pos; (.str v, p))
  else if reprc = 20 then some (let (v, p) := dlis_ascii mem pos; (.str v, p))
  else if reprc = 21 then some (dlis_dtime mem pos)
  else if reprc = 26 then some (let (v, p) := dlis_status mem pos; (.bool (v ≠ 0), p))
  else if reprc = 23 then some (dlis_obname mem pos)
  else Option.none

/-- The loop of core.cpp's `array` (lines 289-325): decode `count` values
of code `reprc`, appending each to the result list. -/
def coreArrayAux : Nat → Int → (Nat → Nat) → Nat → DRes (List PScalar × Nat)
  | 0, _, _, pos => .ok ([], pos)
  | n + 1, reprc, mem, pos =>
    match decode1core reprc mem pos with
    | Option.none => .error (.valueErr "unknown representation code")
    | some (v, pos') =>
      match coreArrayAux n reprc mem pos' with
      | .error e => .error e
      | .ok (rest, p) => .ok (v :: rest, p)

/-- core.cpp's `array(count, reprc, xs)`: always returns the whole list,
also when `count == 1`.  A non-positive count runs zero iterations. -/
def coreArray (count reprc : Int) (mem : Nat → Nat) (pos : Nat) :
    DRes (List PScalar × Nat) :=
  coreArrayAux count.toNat reprc mem pos

/-- One `switch` arm of ext.cpp's `array` (lines 344-357): only seven codes
are supported; DTIME appends the literal string "date-time" and merely
advances the cursor; STATUS stays an `int`. -/
def decode1ext (reprc : Int) (mem : Nat → Nat) (pos : Nat) : Option (PScalar × Nat) :=
  if reprc = 2 then some (dlis_floatlike 2 4 mem pos)        -- FSINGL
  else if reprc = 16 then some (let (v, p) := dlis_unorm mem pos; (.int v, p))
  else if reprc = 18 then some (let (v, p) := dlis_uvari mem pos; (.int v, p))
  else if reprc = 19 then some (let (v, p) := dlis_ident mem pos; (.str v, p))
  else if reprc = 20 then some (let (v, p) := dlis_ascii mem pos; (.str v, p))
  else if reprc = 21 then some (let (_, p) := dlis_dtime mem pos;
                                (.str ((String.toList "date-time").map Char.toNat), p))
  else if reprc = 26 then some (let (v, p) := dlis_status mem pos; (.int v, p))
  else Option.none

/-- The loop of ext.cpp's `array`. -/
def extArrayAux : Nat → Int → (Nat → Nat) → Nat → DRes (List PScalar × Nat)
  | 0, _, _, pos => .ok ([], pos)
  | n + 1, reprc, mem, pos =>
    match decode1ext reprc mem pos with
    | Option.none => .error (.valueErr "unknown array type")
    | some (v, pos') =>
      match extArrayAux n reprc mem pos' with
      | .error e => .error e
      | .ok (rest, p) => .ok (v :: rest, p)

/-- ext.cpp's `array(count, reprc, xs)` (lines 341-362): returns `l[0]`,
the bare scalar, when `count == 1`, and the list otherwise. -/
def extArray (count reprc : Int) (mem : Nat → Nat) (pos : Nat) :
    DRes (PVal × Nat) :=
  match extArrayAux count.toNat reprc mem pos with
  | .error e => .error e
  | .ok (l, p) =>
    if count = 1 then .ok (.scalar (l.getD 0 (.int 0)), p)
    else .ok (.list l, p)

/-- ext.cpp's `ident` wrapper (lines 285-293): calls `dlis_ident` on the
bare cursor — there is no tail bound to check against. -/
def extIdent (mem : Nat → Nat) (pos : Nat) : List Nat × Nat :=
  dlis_ident mem pos

/-- View an assembled payload as the memory the C++ reads through `char*`.
Reads past the end are undefined behaviour in the C++; the model reads 0. -/
def memOf (cat : List Nat) : Nat → Nat := fun i => cat.getD i 0

/-! ## EFLR component machinery

`py::dict` and `py::list` are reference types: copying one copies a handle
to the same Python object.  The embedding makes this explicit with a store
`List Col` of live dicts; a handle is an index, a row is a list of indices,
and mutating a column writes through the index into the store. -/

/-- Modelled from the spec: `dlis_component` (dlisio C library, not under
src/).  Spec 6.1: "Component descriptor byte: role in top 3 bits"; all
eight 3-bit patterns are named roles, so extraction cannot fail. -/
def dlis_component (descriptor : Nat) : Nat := descriptor % 256 / 32

/-- Role encodings, spec 6.1. -/
def ROLE_ABSATR : Nat := 0
def ROLE_ATTRIB : Nat := 1
def ROLE_INVATR : Nat := 2
def ROLE_OBJECT : Nat := 3
def ROLE_RESERV : Nat := 4
def ROLE_RDSET : Nat := 5
def ROLE_RSET : Nat := 6
def ROLE_SET : Nat := 7

/-- Modelled from the spec: `dlis_component_set` (dlisio C library, not
under src/).  The two flag bits of a SET/RDSET/RSET descriptor, spec 4.2:
`has_type`, `has_name` (top two of the five flag bits; scenario S4's `F8`
has both set). -/
def dlis_component_set (descriptor : Nat) : Bool × Bool :=
  (descriptor.testBit 4, descriptor.testBit 3)

/-- Modelled from the spec: `dlis_component_attrib` (dlisio C library, not
under src/).  Spec 4.2 for ATTRIB/INVATR/ABSATR: `has_label`, `has_count`,
`has_reprc`, `has_units`, `has_value`, MSB→LSB in the five flag bits. -/
def dlis_component_attrib (descriptor : Nat) : Bool × Bool × Bool × Bool × Bool :=
  (descriptor.testBit 4, descriptor.testBit 3, descriptor.testBit 2,
   descriptor.testBit 1, descriptor.testBit 0)

/-- One attribute column dict, as built by both sources: defaults
`count=1`, `reprc=DLIS_IDENT (19)`, `value=none` are set unconditionally;
`label` and `units` keys appear only when decoded. -/
structure Col where
  label : Option (List Nat) := Option.none
  count : Int := 1
  reprc : Int := 19
  units : Option (List Nat) := Option.none
  value : PVal := .none
deriving Repr, DecidableEq

instance : Inhabited Col := ⟨{}⟩

/-- Dereference a dict handle in the store. -/
def resolve (dicts : List Col) (i : Nat) : Col := dicts.getD i {}

/-- Write through a dict handle into the store. -/
def storeSet (dicts : List Col) (i : Nat) (f : Col → Col) : List Col :=
  dicts.set i (f (resolve dicts i))

/-- Function `set_attributes` from core.cpp (lines 331-361): the first component
must be SET, RDSET or RSET, then the `type`/`name` flags are decoded. -/
def set_attributes_core (descriptor : Nat) : DRes (Bool × Bool) :=
  let role := dlis_component descriptor
  if role = ROLE_RDSET ∨ role = ROLE_RSET ∨ role = ROLE_SET then
    .ok (dlis_component_set descriptor)
  else .error (.valueErr "expected set")

/-- Function `set_attributes` from ext.cpp (lines 269-283): accepts only SET —
RDSET and RSET are rejected too. -/
def set_attributes_ext (descriptor : Nat) : DRes (Bool × Bool) :=
  let role := dlis_component descriptor
  if role = ROLE_SET then .ok (dlis_component_set descriptor)
  else .error (.valueErr "excepted SET")

/-- Struct `tmpl` from core.cpp: the template's `attribute` and `invariant`
columns, as handles into the dict store (renamed `attributeCols` /
`invariantCols` because `attribute` is a Lean keyword). -/
structure Tmpl where
  attributeCols : List Nat
  invariantCols : List Nat
deriving Repr, DecidableEq

/-- The decoded fields of one template attribute, shared by both sources
(core.cpp lines 396-426, ext.cpp lines 409-435): allocate a dict with the
global defaults, require the label, then decode each flagged field in
order label, count, reprc, units, value — the value decode uses the
just-updated count and reprc. -/
def decodeTemplateCol (descriptor : Nat) (mem : Nat → Nat) (cur : Nat)
    (useExtArray : Bool) : DRes (Col × Nat) :=
  let (label, count, reprc, units, value) := dlis_component_attrib descriptor
  if ¬ label then .error (.valueErr "missing template attribute label")
  else
    let col : Col := {}
    let (lab, cur) := dlis_ident mem cur
    let col := { col with label := some lab }
    let (col, cur) := if count then
        let (c, cur') := dlis_uvari mem cur; ({ col with count := c }, cur')
      else (col, cur)
    let (col, cur) := if reprc then
        let (r, cur') := dlis_ushort mem cur; ({ col with reprc := (r : Int) }, cur')
      else (col, cur)
    let (col, cur) := if units then
        let (u, cur') := dlis_ident mem cur; ({ col with units := some u }, cur')
      else (col, cur)
    if value then
      if useExtArray then
        match extArray col.count col.reprc mem cur with
        | .error e => .error e
        | .ok (v, cur') => .ok ({ col with value := v }, cur')
      else
        match coreArray col.count col.reprc mem cur with
        | .error e => .error e
        | .ok (v, cur') => .ok ({ col with value := .list v }, cur')
    else .ok (col, cur)

/-- Function `eflr_template` from core.cpp (lines 368-431): read components until
the first OBJECT descriptor; ATTRIB columns go to the attribute list and
INVATR columns to the invariant list; every other role is rejected.  Each
iteration allocates a fresh dict in the store. -/
def eflr_templateAux : Nat → (Nat → Nat) → Nat → List Col →
    DRes (Tmpl × Nat × List Col)
  | 0, _, _, _ => .error .fuelOut
  | fuel + 1, mem, cur, dicts =>
    let attr := readByte mem cur
    let role := dlis_component attr
    if role = ROLE_OBJECT then .ok (⟨[], []⟩, cur, dicts)
    else if role = ROLE_ATTRIB ∨ role = ROLE_INVATR then
      let cur := cur + 1
      match decodeTemplateCol attr mem cur false with
      | .error e => .error e
      | .ok (col, cur) =>
        let idx := dicts.length
        let dicts := dicts ++ [col]
        match eflr_templateAux fuel mem cur dicts with
        | .error e => .error e
        | .ok (tl, cur, dicts) =>
          if role = ROLE_ATTRIB then
            .ok ({ tl with attributeCols := idx :: tl.attributeCols }, cur, dicts)
          else
            .ok ({ tl with invariantCols := idx :: tl.invariantCols }, cur, dicts)
    else .error (.valueErr "expected attribute in template")

/-- The per-column overrides of one object in core.cpp's `eflr` (lines
472-533).  The loop ranges over the row's dict handles; it stops at the
end of the buffer or at the next OBJECT descriptor (whose byte it does not
consume).  ABSATR nulls the column's value; ATTRIB overrides the flagged
fields — a stray label is warned about, decoded and discarded.  All writes
go through the handle into the shared store. -/
def objColsCore (mem : Nat → Nat) (endp : Nat) :
    List Nat → Nat → List Col → List String →
    DRes (Nat × List Col × List String)
  | [], cur, dicts, warns => .ok (cur, dicts, warns)
  | idx :: rest, cur, dicts, warns =>
    if cur = endp then .ok (cur, dicts, warns)
    else
      let descriptor := readByte mem cur
      let role := dlis_component descriptor
      if role = ROLE_OBJECT then .ok (cur, dicts, warns)
      else if role = ROLE_ATTRIB ∨ role = ROLE_ABSATR then
        let cur := cur + 1
        if role = ROLE_ABSATR then
          objColsCore mem endp rest cur
            (storeSet dicts idx (fun c => { c with value := .none })) warns
        else
          let (label, count, reprc, units, value) := dlis_component_attrib descriptor
          let (cur, warns) := if label then
              let w := warns ++ ["found unexpected label in object attribute, "
                                  ++ "possibly corrupted file. label"]
              let (_, cur') := dlis_ident mem cur
              (cur', w)
            else (cur, warns)
          let (dicts, cur) := if count then
              let (c, cur') := dlis_uvari mem cur
              (storeSet dicts idx (fun col => { col with count := c }), cur')
            else (dicts, cur)
          let (dicts, cur) := if reprc then
              let (r, cur') := dlis_ushort mem cur
              (storeSet dicts idx (fun col => { col with reprc := (r : Int) }), cur')
            else (dicts, cur)
          let (dicts, cur) := if units then
              let (u, cur') := dlis_ident mem cur
              (storeSet dicts idx (fun col => { col with units := some u }), cur')
            else (dicts, cur)
          if value then
            match coreArray (resolve dicts idx).count (resolve dicts idx).reprc mem cur with
            | .error e => .error e
            | .ok (v, cur') =>
              objColsCore mem endp rest cur'
                (storeSet dicts idx (fun col => { col with value := .list v })) warns
          else objColsCore mem endp rest cur dicts warns
      else .error (.valueErr "expected attribute")

/-- Assignment `objects[py::make_tuple(name)] = row`: a Python dict assignment —
an existing key is overwritten in place, a new key is appended. -/
def objUpsert (objs : List (PScalar × List Nat)) (k : PScalar) (v : List Nat) :
    List (PScalar × List Nat) :=
  if objs.any (fun p => p.1 = k) then
    objs.map (fun p => if p.1 = k then (k, v) else p)
  else objs ++ [(k, v)]

/-- The object loop of core.cpp's `eflr` (lines 450-538): at each OBJECT
descriptor decode the OBNAME, copy the template's attribute handles as the
row (`auto row = tmpl.attribute` — a vector copy of dict handles, not of
dicts), run `objColsCore` over it, append the invariant handles, and store
the row under the name. -/
def eflr_objectsAux : Nat → (Nat → Nat) → Nat → Nat → List Nat → List Nat →
    List Col → List String → List (PScalar × List Nat) →
    DRes (List (PScalar × List Nat) × List Col × List String)
  | 0, _, _, _, _, _, _, _, _ => .error .fuelOut
  | fuel + 1, mem, endp, cur, tA, tI, dicts, warns, objs =>
    if cur = endp then .ok (objs, dicts, warns)
    else
      let descriptor := readByte mem cur
      let role := dlis_component descriptor
      if role ≠ ROLE_OBJECT then .error (.valueErr "expected object")
      else
        let nc := dlis_obname mem (cur + 1)
        let row := tA
        match objColsCore mem endp row nc.2 dicts warns with
        | .error e => .error e
        | .ok (cur', dicts', warns') =>
          eflr_objectsAux fuel mem endp cur' tA tI dicts' warns'
            (objUpsert objs nc.1 (row ++ tI))

/-- The record produced by core.cpp's `eflr`, with every dict handle
resolved against the final store — i.e. the record as a Python caller
observes it after the parse returns. -/
structure EflrRec where
  typ : Option (List Nat)
  nameV : Option (List Nat)
  templateAttribute : List Col
  templateInvariant : List Col
  objects : List (PScalar × List Col)
deriving Repr, DecidableEq

/-- Function `eflr(cat)` from core.cpp (lines 433-544): set header, template,
objects, then the record is assembled from the live dicts.  The returned
warnings are the diagnostics emitted through `runtime_warning`. -/
def eflrD (fuel : Nat) (cat : List Nat) : DRes (EflrRec × List String) :=
  let mem := memOf cat
  let endp := cat.length
  let descriptor := readByte mem 0
  let cur := 1
  match set_attributes_core descriptor with
  | .error e => .error e
  | .ok flags =>
    let tv := if flags.1 then some (dlis_ident mem cur).1 else Option.none
    let cur := if flags.1 then (dlis_ident mem cur).2 else cur
    let nv := if flags.2 then some (dlis_ident mem cur).1 else Option.none
    let cur := if flags.2 then (dlis_ident mem cur).2 else cur
    match eflr_templateAux fuel mem cur [] with
    | .error e => .error e
    | .ok (tm, cur, dicts) =>
      match eflr_objectsAux fuel mem endp cur tm.attributeCols tm.invariantCols dicts [] [] with
      | .error e => .error e
      | .ok (objs, dicts, warns) =>
        .ok ({ typ := tv, nameV := nv,
               templateAttribute := tm.attributeCols.map (resolve dicts),
               templateInvariant := tm.invariantCols.map (resolve dicts),
               objects := objs.map (fun p => (p.1, p.2.map (resolve dicts))) },
             warns)

/-! ## ext.cpp's `parse_elfr`

ext.cpp builds the template as a `py::list templ` and then sets
`auto row = templ;` — copying a `py::list` copies the handle, so every
object's row IS the template list.  The embedding therefore also stores the
live lists: `lists` is the list store, handle 0 is `templ` and handle 1 is
`invariant`; the rows held in `objects` are list handles. -/

/-- The template loop of ext.cpp's `parse_elfr` (lines 387-439).  Note the
differences from core.cpp: RESERV and the set roles get their own errors
while every remaining role — including ABSATR — is accepted and, unless it
is INVATR, appended to `templ`. -/
def ext_templateAux : Nat → (Nat → Nat) → Nat → List Col → List Nat → List Nat →
    DRes (Nat × List Col × List Nat × List Nat)
  | 0, _, _, _, _, _ => .error .fuelOut
  | fuel + 1, mem, cur, dicts, templ, invariant =>
    let descriptor := readByte mem cur
    let role := dlis_component descriptor
    if role = ROLE_OBJECT then .ok (cur, dicts, templ, invariant)
    else if role = ROLE_RESERV then .error (.valueErr "expected attribute, got reserved")
    else if role = ROLE_RDSET ∨ role = ROLE_RSET ∨ role = ROLE_SET then
      .error (.valueErr "expected attribute, got SET")
    else
      let cur := cur + 1
      match decodeTemplateCol descriptor mem cur true with
      | .error e => .error e
      | .ok (entry, cur) =>
        let idx := dicts.length
        let dicts := dicts ++ [entry]
        if role = ROLE_INVATR then
          ext_templateAux fuel mem cur dicts templ (invariant ++ [idx])
        else
          ext_templateAux fuel mem cur dicts (templ ++ [idx]) invariant

/-- The per-column loop of one object in ext.cpp's `parse_elfr` (lines
463-507).  Unlike core.cpp, a label flag on an object attribute is a fatal
error, and the value decode goes through ext.cpp's `array` (which unwraps
`count == 1`). -/
def objColsExt (mem : Nat → Nat) (endp : Nat) :
    List Nat → Nat → List Col → DRes (Nat × List Col)
  | [], cur, dicts => .ok (cur, dicts)
  | idx :: rest, cur, dicts =>
    if cur = endp then .ok (cur, dicts)
    else
      let descriptor := readByte mem cur
      let role := dlis_component descriptor
      if role = ROLE_OBJECT then .ok (cur, dicts)
      else if role = ROLE_ATTRIB ∨ role = ROLE_ABSATR then
        let cur := cur + 1
        if role = ROLE_ABSATR then
          objColsExt mem endp rest cur
            (storeSet dicts idx (fun c => { c with value := .none }))
        else
          let (label, count, reprc, units, value) := dlis_component_attrib descriptor
          if label then .error (.valueErr "label in object attribute")
          else
            let (dicts, cur) := if count then
                let (c, cur') := dlis_uvari mem cur
                (storeSet dicts idx (fun col => { col with count := c }), cur')
              else (dicts, cur)
            let (dicts, cur) := if reprc then
                let (r, cur') := dlis_ushort mem cur
                (storeSet dicts idx (fun col => { col with reprc := (r : Int) }), cur')
              else (dicts, cur)
            let (dicts, cur) := if units then
                let (u, cur') := dlis_ident mem cur
                (storeSet dicts idx (fun col => { col with units := some u }), cur')
              else (dicts, cur)
            if value then
              match extArray (resolve dicts idx).count (resolve dicts idx).reprc mem cur with
              | .error e => .error e
              | .ok (v, cur') =>
                objColsExt mem endp rest cur'
                  (storeSet dicts idx (fun col => { col with value := v }))
            else objColsExt mem endp rest cur dicts
      else .error (.valueErr "role not attribute")

/-- ext.cpp object keys: `py::make_tuple(origin, copy, id)`. -/
def extUpsert (objs : List ((Int × Nat × List Nat) × List Nat))
    (k : Int × Nat × List Nat) (v : List Nat) :
    List ((Int × Nat × List Nat) × List Nat) :=
  if objs.any (fun p => p.1 = k) then
    objs.map (fun p => if p.1 = k then (k, v) else p)
  else objs ++ [(k, v)]

/-- The object loop of ext.cpp's `parse_elfr` (lines 443-513).  `row` is
the very `templ` list (handle sharing), the column loop iterates over its
content at loop entry, and afterwards the invariant handles are appended to
it — which grows `templ` itself once per object. -/
def ext_objectsAux : Nat → (Nat → Nat) → Nat → Nat → List Col →
    List Nat → List Nat → List ((Int × Nat × List Nat) × List Nat) →
    DRes (List Col × List Nat × List Nat × List ((Int × Nat × List Nat) × List Nat))
  | 0, _, _, _, _, _, _, _ => .error .fuelOut
  | fuel + 1, mem, endp, cur, dicts, templ, invariant, objs =>
    if cur = endp then .ok (dicts, templ, invariant, objs)
    else
      let descriptor := readByte mem cur
      let cur := cur + 1
      let role := dlis_component descriptor
      if role ≠ ROLE_OBJECT then .error (.valueErr "expected OBJECT")
      else
        let (origin, cur) := dlis_uvari mem cur
        let (copy, cur) := dlis_ushort mem cur
        let (id, cur) := dlis_ident mem cur
        match objColsExt mem endp templ cur dicts with
        | .error e => .error e
        | .ok (cur, dicts) =>
          let templ := templ ++ invariant
          ext_objectsAux fuel mem endp cur dicts templ invariant
            (extUpsert objs (origin, copy, id) templ)

/-- The record produced by ext.cpp's `parse_elfr`, resolved against the
final stores (what the Python caller observes). -/
structure ExtRec where
  typ : Option (List Nat)
  nameV : Option (List Nat)
  template : List Col
  objects : List ((Int × Nat × List Nat) × List Col)
deriving Repr, DecidableEq

/-- ext.cpp's `parse_elfr` (lines 364-521) applied to an already assembled
payload: set header (SET only), template, objects, then the invariants are
appended to `templ` once more and the record is built from the live
objects. -/
def extParse (fuel : Nat) (cat : List Nat) : DRes (ExtRec × List String) :=
  let mem := memOf cat
  let endp := cat.length
  let descriptor := readByte mem 0
  let cur := 1
  match set_attributes_ext descriptor with
  | .error e => .error e
  | .ok (hasType, hasName) =>
    let (tv, cur) := if hasType then
        let (t, c) := dlis_ident mem cur; (some t, c)
      else (Option.none, cur)
    let (nv, cur) := if hasName then
        let (n, c) := dlis_ident mem cur; (some n, c)
      else (Option.none, cur)
    match ext_templateAux fuel mem cur [] [] [] with
    | .error e => .error e
    | .ok (cur, dicts, templ, invariant) =>
      match ext_objectsAux fuel mem endp cur dicts templ invariant [] with
      | .error e => .error e
      | .ok (dicts, templ, invariant, objs) =>
        let templ := templ ++ invariant
        .ok ({ typ := tv, nameV := nv,
               template := templ.map (resolve dicts),
               objects := objs.map (fun p => (p.1, p.2.map (resolve dicts))) }, [])

/-! ## `file::eof` -/

/-- Operation `std::fgetc`: returns the next byte (as `unsigned char`) and advances,
or EOF (here `Option.none`) at the end of the stream without advancing. -/
def fgetc (s : FStream) : Option Nat × FStream :=
  if s.pos < s.data.length then (some (s.data.getD s.pos 0 % 256), ⟨s.data, s.pos + 1⟩)
  else (Option.none, s)

/-- Operation `std::ungetc` of the byte just read: pushes it back, moving the
position one byte back.  The C standard guarantees one byte of pushback
after a successful read, so the failure branch of `ungetc` (which the C++
also routes to `return true`) does not arise in the model. -/
def ungetc (s : FStream) : FStream := ⟨s.data, s.pos - 1⟩

/-- Method `file::eof` from both sources (core.cpp lines 129-139, ext.cpp lines
147-157): probe one byte with `fgetc`; EOF means the answer is true,
otherwise the byte is pushed back and — since a successful `fgetc` means
the EOF indicator is clear after `ungetc` — the answer is false. -/
def fileEof (s : FStream) : Bool × FStream :=
  match fgetc s with
  | (Option.none, s') => (true, s')
  | (some _, s') => (false, ungetc s')

/-! ## Spec-side material for the assembler claim (C6)

`encodeChain` serialises a chain of (attribute byte, body) segments into
the byte stream `catrecord` reads, and `stripSeg` applies the spec's
per-segment tail stripping; the theorem for C6 relates `catrecord` on the
encoded stream to `stripSeg` mapped over the chain. -/

/-- Serialise one segment: 4-byte LRSH (big-endian length including the
header, the attribute byte, type 0) followed by the body. -/
def encodeSeg (a : Nat) (body : List Nat) : List Nat :=
  [(body.length + 4) / 256, (body.length + 4) % 256, a, 0] ++ body

/-- Serialise a chain of segments. -/
def encodeChain (segs : List (Nat × List Nat)) : List Nat :=
  (segs.map (fun p => encodeSeg p.1 p.2)).flatten

/-- The spec's tail stripping of one segment body (spec 4.5, in source
order): trailing length drops 2 bytes, checksum drops 2 bytes, padding
reads the (remaining) last byte P and drops the last P bytes. -/
def stripSeg (a : Nat) (body : List Nat) : List Nat :=
  let b1 := if a.testBit 1 then body.take (body.length - 2) else body
  let b2 := if a.testBit 2 then b1.take (b1.length - 2) else b1
  if a.testBit 0 then b2.take (b2.length - b2.getLastD 0) else b2

/-- Total encoded length of a chain. -/
def chainLen (segs : List (Nat × List Nat)) : Int :=
  ((segs.map (fun p => p.2.length + 4)).sum : Nat)

/-- Bytes dropped by the trailing-length and checksum strips. -/
def tlcs (a : Nat) : Nat :=
  (if a.testBit 1 then 2 else 0) + (if a.testBit 2 then 2 else 0)

/-- The pad count the padding strip reads and drops (0 when the padding
flag is clear). -/
def padOf (a : Nat) (body : List Nat) : Nat :=
  if a.testBit 0 then (body.take (body.length - tlcs a)).getLastD 0 else 0

/-- Total bytes stripped from one segment body. -/
def stripCount (p : Nat × List Nat) : Nat :=
  tlcs p.1 + padOf p.1 p.2

/-- Well-formedness of one chain element for the assembler claim: the
attribute is a byte, body bytes are bytes, the length (body + header) fits
a u16, and the tail strips stay inside this body. -/
def segOk (p : Nat × List Nat) : Prop :=
  p.1 < 256 ∧ p.2.length + 4 < 65536 ∧ tlcs p.1 < p.2.length ∧
  tlcs p.1 + padOf p.1 p.2 ≤ p.2.length ∧ ∀ b ∈ p.2, b < 256

/-- Successor flags along a chain: every segment but the last has the
has_successor bit (bit 5) set, the last has it clear. -/
def chainFlags : List (Nat × List Nat) → Prop
  | [] => True
  | [p] => p.1.testBit 5 = false
  | p :: rest => p.1.testBit 5 = true ∧ chainFlags rest

instance segOkDecidable : DecidablePred segOk := fun p => by
  unfold segOk; infer_instance

instance chainFlagsDecidable : (l : List (Nat × List Nat)) → Decidable (chainFlags l)
  | [] => .isTrue trivial
  | [p] => inferInstanceAs (Decidable (p.1.testBit 5 = false))
  | p :: q :: rest =>
    haveI := chainFlagsDecidable (q :: rest)
    inferInstanceAs (Decidable (p.1.testBit 5 = true ∧ chainFlags (q :: rest)))

/-! ## Concrete inputs used by the counterexamples and witnesses -/

/-- An EFLR payload: SET with type "T"; template of one attribute labelled
"A" (defaults preserved, value absent); object (1,0,"X") overriding the
value of column "A" with the IDENT "V"; object (2,0,"Y") with no attribute
components at all. -/
def c1payload : List Nat :=
  [240, 1, 84, 48, 1, 65, 96, 1, 0, 1, 88, 33, 1, 86, 96, 2, 0, 1, 89]

/-- The column cell shared by the template and both rows of `c1payload`
after the parse: object (1,0,"X")'s override is visible everywhere. -/
def c1colAfter : Col :=
  { label := some [65], value := .list [.str [86]] }

/-- What core.cpp's `eflr` actually returns for `c1payload`. -/
def c1rec : EflrRec :=
  { typ := some [84], nameV := Option.none,
    templateAttribute := [c1colAfter], templateInvariant := [],
    objects := [(.obname 1 0 [88], [c1colAfter]), (.obname 2 0 [89], [c1colAfter])] }

/-- Like `c1payload` but with an invariant column "I" between the template
attribute and the objects: SET type "T"; template ATTRIB "A", INVATR "I";
object (1,0,"X") overrides "A"; object (2,0,"Y") has no components. -/
def c8payload : List Nat :=
  [240, 1, 84, 48, 1, 65, 80, 1, 73, 96, 1, 0, 1, 88, 33, 1, 86, 96, 2, 0, 1, 89]

/-- The invariant column of `c8payload` (never overridden). -/
def c8colI : Col := { label := some [73] }

/-- What core.cpp's `eflr` actually returns for `c8payload`. -/
def c8rec : EflrRec :=
  { typ := some [84], nameV := Option.none,
    templateAttribute := [c1colAfter], templateInvariant := [c8colI],
    objects := [(.obname 1 0 [88], [c1colAfter, c8colI]),
                (.obname 2 0 [89], [c1colAfter, c8colI])] }

/-- An EFLR payload whose single object carries an attribute component with
the label flag set (descriptor 48) followed by the IDENT "L": SET type "T",
template ATTRIB "A", object (1,0,"X"). -/
def c9payload : List Nat :=
  [240, 1, 84, 48, 1, 65, 96, 1, 0, 1, 88, 48, 1, 76]

/-- The record core.cpp produces for `c9payload`: the stray label is
skipped, nothing is overridden. -/
def c9rec : EflrRec :=
  { typ := some [84], nameV := Option.none,
    templateAttribute := [{ label := some [65] }], templateInvariant := [],
    objects := [(.obname 1 0 [88], [{ label := some [65] }])] }

/-- A second stray-label payload (label IDENT "M") for the ext.cpp
counterexample. -/
def c9payloadB : List Nat :=
  [240, 1, 84, 48, 1, 65, 96, 1, 0, 1, 88, 48, 1, 77]

/-- A visible record with 8 residual bytes whose single segment claims
length 12 (attrs 0, no successor), followed by its 8 body bytes: reading it
drives the residual to -4. -/
def c3data : List Nat := [0, 12, 0, 0, 0, 0, 0, 0, 0, 0, 0, 0]

/-- Two chained segments: the first has is_eflr and has_successor set
(attrs 0xA0), the second has attrs 0 — the chain disagrees on is_eflr. -/
def c4data : List Nat :=
  [0, 8, 160, 0, 9, 9, 9, 9, 0, 8, 0, 0, 7, 7, 7, 7]

/-- One segment with only is_encrypted set (attrs 0x10) and body
[1, 2, 3, 4]. -/
def c5data : List Nat := [0, 8, 16, 0, 1, 2, 3, 4]

/-- A two-segment chain for the assembler witness: the first segment has
has_successor and has_trailing_length (attrs 0x22) and body
[10, 11, 12, 0, 0]; the second has has_padding (attrs 0x01) and body
[20, 21, 2] (pad count 2). -/
def c6segs : List (Nat × List Nat) := [(34, [10, 11, 12, 0, 0]), (1, [20, 21, 2])]

/-! ## Theorems -/

/-- C10: for every open file, `eof()` returns true exactly when no further
byte can be read (the position is at or past the end of the data), and the
stream it leaves behind is unchanged — the probed byte is pushed back. -/
theorem C10_eof_exact_and_position_preserved (s : FStream) :
    ((fileEof s).1 = true ↔ s.data.length ≤ s.pos) ∧ (fileEof s).2 = s := by
  obtain ⟨data, pos⟩ := s
  by_cases h : pos < data.length
  · simp [fileEof, fgetc, ungetc, h]
  · simp [fileEof, fgetc, h]
    omega

/-- C1 (code bug): core.cpp's `eflr` does not give each object row a deep
copy of the template columns.  On `c1payload`, object (1,0,"X") overrides
the single column's value with the IDENT "V"; object (2,0,"Y") carries no
attribute components at all, yet its row — and the returned template
column itself — show "V" instead of the template default `none`, because
`auto row = tmpl.attribute` copies `py::dict` handles, not dicts.  The
claim (deep copy; decoding one object changes only that row) is what the
source's own comment intends ("default the remaining columns") and what
the spec states; the code does otherwise. -/
theorem C1_rows_alias_template :
    eflrD 100 c1payload = .ok (c1rec, []) ∧
    c1rec.objects.map Prod.fst = [.obname 1 0 [88], .obname 2 0 [89]] ∧
    c1rec.objects.map (fun p => p.2.map Col.value) =
      [[.list [.str [86]]], [.list [.str [86]]]] ∧
    c1rec.templateAttribute.map Col.value = [.list [.str [86]]] ∧
    PVal.list [.str [86]] ≠ PVal.none ∧ (default : Col).value = PVal.none := by
  refine ⟨rfl, rfl, rfl, rfl, by simp, rfl⟩

/-- C3 counterexample: `mark` (the indexer behind `index_next`) performs no
underflow check.  On `c3data` with residual 8 the single segment claims
length 12; `mark` returns the bookmark and the underflowed new residual -4
instead of failing with a Framing error. -/
theorem C3_counterexample_mark_returns_negative_residual :
    mark 10 ⟨c3data, 0⟩ 8 = .ok ((⟨0, 8, false⟩, -4, []), ⟨c3data, 12⟩) ∧
    (-4 : Int) < 0 := ⟨rfl, by decide⟩

/-- C4 counterexample: on `c4data` the first segment of the chain has
is_eflr set (attrs 0xA0, bit 7 = true) and has_successor set; the second
segment has attrs 0 (is_eflr clear).  `mark` succeeds — no ChainMismatch —
and the bookmark's is_eflr flag is false: it was overwritten by the last
segment, not taken from the first. -/
theorem C4_counterexample_flag_from_last_segment :
    mark 10 ⟨c4data, 0⟩ 16 = .ok ((⟨0, 16, false⟩, 0, []), ⟨c4data, 16⟩) ∧
    Nat.testBit 160 7 = true ∧ Nat.testBit 0 7 = false := ⟨rfl, by decide, by decide⟩

/-- C5 counterexample: the single segment of `c5data` has is_encrypted set
(attrs 0x10) and there is no opt-in parameter anywhere; `catrecord`
nevertheless succeeds and returns the encrypted body bytes [1,2,3,4]
instead of failing with an Encrypted error. -/
theorem C5_counterexample_encrypted_bytes_returned :
    catrecord 10 ⟨c5data, 0⟩ 8 = .ok (([1, 2, 3, 4], []), ⟨c5data, 8⟩) ∧
    (dlis_segment_attributes 16).is_encrypted = true := ⟨rfl, rfl⟩

/-- C7 counterexample: ext.cpp's `array` with `count == 1` (here one UVARI
with value 5) returns the bare scalar, not a one-element sequence. -/
theorem C7_counterexample_singleton_unwrapped :
    extArray 1 18 (fun _ => 5) 0 = .ok (.scalar (.int 5), 1) ∧
    PVal.scalar (.int 5) ≠ PVal.list [.int 5] := ⟨rfl, by simp⟩

/-- C2 counterexample: ext.cpp's `ident` decoder applied to the one-byte
payload [5] (length prefix 5, no payload bytes left) does not fail — no
TruncatedField error exists — and advances the cursor to 6, five bytes
past the end of the payload, returning whatever the out-of-bounds memory
holds (zeros in the model). -/
theorem C2_counterexample_ident_reads_past_end :
    extIdent (memOf [5]) 0 = ([0, 0, 0, 0, 0], 6) ∧ List.length [5] < 6 :=
  ⟨rfl, by decide⟩

/-- C9 counterexample: on `c9payloadB` the object's attribute component has
the label flag set; ext.cpp's `parse_elfr` aborts the whole record with
"label in object attribute" instead of warning and continuing. -/
theorem C9_counterexample_ext_aborts_on_stray_label :
    extParse 100 c9payloadB = .error (.valueErr "label in object attribute") := rfl

/-- C9 (amended): a stray label flag on an object attribute is handled
differently by the two parsers in src: core.cpp's `eflr` emits the
non-fatal warning, decodes and discards the IDENT and parses the record to
completion, while ext.cpp's `parse_elfr` fails the record with an error.
On `c9payload` (stray label + IDENT "L"): core returns the parsed record
and exactly the warning; ext returns the error. -/
theorem C9_core_warns_ext_fails :
    eflrD 100 c9payload =
      .ok (c9rec,
        ["found unexpected label in object attribute, possibly corrupted file. label"]) ∧
    extParse 100 c9payload = .error (.valueErr "label in object attribute") := ⟨rfl, rfl⟩

/-- C2 (amended): the primitive decoders receive no tail bound at all — the
`const char*&` interface carries only the cursor — so no truncation check
is possible and no TruncatedField failure exists.  For the IDENT decoder:
the cursor always advances by 1 plus the length prefix, and whenever that
exceeds the bytes available the cursor ends up past the payload end. -/
theorem C2_decoder_has_no_tail_bound (cat : List Nat) (pos : Nat)
    (h : cat.length < pos + 1 + readByte (memOf cat) pos) :
    (extIdent (memOf cat) pos).2 = pos + 1 + readByte (memOf cat) pos ∧
    cat.length < (extIdent (memOf cat) pos).2 := by
  refine ⟨rfl, ?_⟩
  simpa [extIdent, dlis_ident] using h

/-- Witness for C2's amended theorem at the concrete payload [5]. -/
theorem C2_decoder_has_no_tail_bound_witness :
    List.length [5] < 0 + 1 + readByte (memOf [5]) 0 ∧
    ((extIdent (memOf [5]) 0).2 = 0 + 1 + readByte (memOf [5]) 0 ∧
     List.length [5] < (extIdent (memOf [5]) 0).2) :=
  ⟨by decide, C2_decoder_has_no_tail_bound [5] 0 (by decide)⟩

theorem coreArrayAux_length (n : Nat) (reprc : Int) (mem : Nat → Nat) :
    ∀ pos l p, coreArrayAux n reprc mem pos = .ok (l, p) → l.length = n := by
  induction n with
  | zero =>
    intro pos l p h
    simp only [coreArrayAux] at h
    cases h
    rfl
  | succ n ih =>
    intro pos l p h
    unfold coreArrayAux at h
    cases hd : decode1core reprc mem pos with
    | none => rw [hd] at h; exact absurd h (by simp)
    | some vp =>
      obtain ⟨v, q⟩ := vp
      rw [hd] at h
      dsimp only at h
      cases hr : coreArrayAux n reprc mem q with
      | error e => rw [hr] at h; exact absurd h (by simp)
      | ok lp =>
        obtain ⟨rest, pp⟩ := lp
        rw [hr] at h
        simp only [Except.ok.injEq, Prod.mk.injEq] at h
        obtain ⟨h1, h2⟩ := h
        subst h1
        simp [ih q rest pp hr]

/-- C7 (amended): core.cpp's `array` always yields the ordered sequence of
exactly `count` decoded values, also when `count == 1`; ext.cpp's `array`,
by contrast, unwraps a successful `count == 1` decode to the bare scalar —
its result is never the one-element sequence. -/
theorem C7_core_keeps_sequence_ext_unwraps :
    (∀ (count reprc : Int) (mem : Nat → Nat) (pos : Nat) (l : List PScalar) (p : Nat),
        coreArray count reprc mem pos = .ok (l, p) → l.length = count.toNat) ∧
    (∀ (reprc : Int) (mem : Nat → Nat) (pos : Nat) (v : PVal) (p : Nat),
        extArray 1 reprc mem pos = .ok (v, p) → ∀ lst : List PScalar, v ≠ PVal.list lst) := by
  constructor
  · intro count reprc mem pos l p h
    exact coreArrayAux_length count.toNat reprc mem pos l p h
  · intro reprc mem pos v p h lst
    unfold extArray at h
    cases he : extArrayAux (1 : Int).toNat reprc mem pos with
    | error e => rw [he] at h; exact absurd h (by simp)
    | ok lp =>
      rw [he] at h
      simp only [if_pos rfl] at h
      cases h
      simp

/-- Witness for C7's amended theorem: core's `array` on two UVARIs keeps
both values; ext's `array` on one UVARI is not a sequence. -/
theorem C7_core_keeps_sequence_ext_unwraps_witness :
    List.length [PScalar.int 0, PScalar.int 0] = (2 : Int).toNat ∧
    PVal.scalar (.int 0) ≠ PVal.list [] :=
  ⟨C7_core_keeps_sequence_ext_unwraps.1 2 18 (fun _ => 0) 0 [.int 0, .int 0] 2 rfl,
   C7_core_keeps_sequence_ext_unwraps.2 18 (fun _ => 0) 0 (.scalar (.int 0)) 1 rfl []⟩

theorem objUpsert_forall {P : List Nat → Prop} (objs : List (PScalar × List Nat))
    (k : PScalar) (v : List Nat)
    (h : ∀ p ∈ objs, P p.2) (hv : P v) : ∀ p ∈ objUpsert objs k v, P p.2 := by
  intro p hp
  unfold objUpsert at hp
  by_cases hc : objs.any (fun q => q.1 = k)
  · rw [if_pos hc] at hp
    obtain ⟨q, hq, hpq⟩ := List.mem_map.mp hp
    by_cases hqk : q.1 = k
    · rw [if_pos hqk] at hpq; subst hpq; exact hv
    · rw [if_neg hqk] at hpq; subst hpq; exact h q hq
  · rw [if_neg hc] at hp
    rcases List.mem_append.mp hp with h1 | h2
    · exact h p h1
    · simp only [List.mem_singleton] at h2; subst h2; exact hv

theorem eflr_objectsAux_rows (fuel : Nat) :
    ∀ (mem : Nat → Nat) (endp cur : Nat) (tA tI : List Nat) (dicts : List Col)
      (warns : List String) (objs objs' : List (PScalar × List Nat))
      (dicts' : List Col) (warns' : List String),
      (∀ p ∈ objs, p.2 = tA ++ tI) →
      eflr_objectsAux fuel mem endp cur tA tI dicts warns objs =
        .ok (objs', dicts', warns') →
      ∀ p ∈ objs', p.2 = tA ++ tI := by
  induction fuel with
  | zero =>
    intro mem endp cur tA tI dicts warns objs objs' dicts' warns' hin h
    exact absurd h (by simp [eflr_objectsAux])
  | succ fuel ih =>
    intro mem endp cur tA tI dicts warns objs objs' dicts' warns' hin h
    unfold eflr_objectsAux at h
    by_cases hend : cur = endp
    · rw [if_pos hend] at h
      simp only [Except.ok.injEq, Prod.mk.injEq] at h
      obtain ⟨h1, h2, h3⟩ := h
      subst h1
      exact hin
    · rw [if_neg hend] at h
      dsimp only at h
      by_cases hrole : dlis_component (readByte mem cur) ≠ ROLE_OBJECT
      · rw [if_pos hrole] at h; exact absurd h (by simp)
      · rw [if_neg hrole] at h
        cases hc : objColsCore mem endp tA (dlis_obname mem (cur + 1)).2 dicts warns with
        | error e => rw [hc] at h; exact absurd h (by simp)
        | ok t =>
          obtain ⟨cur2, dicts2, warns2⟩ := t
          rw [hc] at h
          exact ih mem endp cur2 tA tI dicts2 warns2 _ objs' dicts' warns'
            (objUpsert_forall (P := fun r => r = tA ++ tI) _ _ _ hin rfl) h

/-- C8 (amended): for every successfully parsed EFLR record, every object
row — as observed after `eflr` returns — consists of exactly the record's
template-attribute columns followed by its invariant columns, in template
order; in particular every row has |template| + |invariants| columns.
Because the rows hold handles to the very template dicts, a column with no
override in its object shows whatever the shared template cell last held —
the template default only if no object overrode that column (see the
counterexample). -/
theorem C8_rows_equal_final_template (fuel : Nat) (cat : List Nat) (rec : EflrRec)
    (ws : List String) (h : eflrD fuel cat = .ok (rec, ws)) :
    ∀ p ∈ rec.objects, p.2 = rec.templateAttribute ++ rec.templateInvariant := by
  unfold eflrD at h
  dsimp only at h
  cases hs : set_attributes_core (readByte (memOf cat) 0) with
  | error e => rw [hs] at h; exact absurd h (by simp)
  | ok flags =>
    rw [hs] at h
    dsimp only at h
    cases ht : eflr_templateAux fuel (memOf cat)
        (if flags.2 then
          (dlis_ident (memOf cat) (if flags.1 then (dlis_ident (memOf cat) 1).2 else 1)).2
         else if flags.1 then (dlis_ident (memOf cat) 1).2 else 1) [] with
    | error e => rw [ht] at h; exact absurd h (by simp)
    | ok t =>
      obtain ⟨tm, cur2, dicts⟩ := t
      rw [ht] at h
      dsimp only at h
      cases ho : eflr_objectsAux fuel (memOf cat) cat.length cur2 tm.attributeCols
          tm.invariantCols dicts [] [] with
      | error e => rw [ho] at h; exact absurd h (by simp)
      | ok o =>
        obtain ⟨objs, dicts2, warns2⟩ := o
        rw [ho] at h
        dsimp only at h
        simp only [Except.ok.injEq, Prod.mk.injEq] at h
        obtain ⟨hrec, hws⟩ := h
        subst hrec
        intro p hp
        simp only [List.mem_map] at hp
        obtain ⟨q, hq, rfl⟩ := hp
        have hrow := eflr_objectsAux_rows fuel (memOf cat) cat.length cur2
          tm.attributeCols tm.invariantCols dicts [] [] objs dicts2 warns2
          (by intro p hp; exact absurd hp (List.not_mem_nil p)) ho q hq
        simp [hrow, List.map_append]

/-- Witness for C8's amended theorem: object (2,0,"Y") of `c8payload`. -/
theorem C8_rows_equal_final_template_witness :
    ([c1colAfter, c8colI] : List Col) =
      c8rec.templateAttribute ++ c8rec.templateInvariant :=
  C8_rows_equal_final_template 100 c8payload c8rec [] rfl
    (.obname 2 0 [89], [c1colAfter, c8colI]) (by decide)

/-- C8 counterexample: the claim's clause "columns with no override in the
object keep the template defaults" is false.  In `c8payload` object
(2,0,"Y") carries no attribute components, yet its column "A" shows object
(1,0,"X")'s override (the IDENT "V") instead of the template default
`none`. -/
theorem C8_counterexample_defaults_not_kept :
    eflrD 100 c8payload = .ok (c8rec, []) ∧
    c8rec.objects.map Prod.fst = [.obname 1 0 [88], .obname 2 0 [89]] ∧
    c8rec.objects.map (fun p => p.2.map Col.value) =
      [[.list [.str [86]], .none], [.list [.str [86]], .none]] ∧
    PVal.list [.str [86]] ≠ PVal.none := ⟨rfl, rfl, rfl, by simp⟩

theorem getbytes_at (data pre mid post : List Nat) (n pos : Nat)
    (hdata : data = pre ++ (mid ++ post)) (hpos : pos = pre.length)
    (hn : n = mid.length) :
    getbytes n ⟨data, pos⟩ = .ok (mid.map (fun x => x % 256), ⟨data, pos + n⟩) := by
  subst hdata hpos hn
  unfold getbytes
  have hle : pre.length + mid.length ≤ (pre ++ (mid ++ post)).length := by
    simp [List.length_append]
  rw [if_pos hle, List.drop_left, List.take_left]

theorem encodeSeg_length (a : Nat) (body : List Nat) :
    (encodeSeg a body).length = body.length + 4 := by
  simp [encodeSeg]

theorem map_mod_bytes (l : List Nat) (h : ∀ x ∈ l, x < 256) :
    l.map (fun x => x % 256) = l := by
  induction l with
  | nil => rfl
  | cons x xs ih => simp_all [Nat.mod_eq_of_lt]

theorem segment_header_at (data pre body post : List Nat) (a pos : Nat)
    (hdata : data = pre ++ (encodeSeg a body ++ post)) (hpos : pos = pre.length)
    (ha : a < 256) (hlen : body.length + 4 < 65536) :
    segment_header ⟨data, pos⟩ =
      .ok (⟨a, ((body.length + 4 : Nat) : Int), 0⟩, ⟨data, pos + 4⟩) := by
  unfold segment_header
  have hassoc : data =
      pre ++ ([(body.length + 4) / 256, (body.length + 4) % 256, a, 0] ++ (body ++ post)) := by
    rw [hdata]; simp [encodeSeg]
  rw [getbytes_at data pre [(body.length + 4) / 256, (body.length + 4) % 256, a, 0]
      (body ++ post) 4 pos hassoc hpos rfl]
  have e1 : a % 256 = a := Nat.mod_eq_of_lt ha
  have e2 : (body.length + 4) / 256 % 256 = (body.length + 4) / 256 := by omega
  have e3 : (body.length + 4) % 256 % 256 = (body.length + 4) % 256 := by omega
  unfold dlis_lrsh
  simp only [List.map_cons, List.map_nil, List.getD_cons_zero, List.getD_cons_succ,
    e1, e2, e3, Except.ok.injEq, Prod.mk.injEq, segheader.mk.injEq, and_true, true_and]
  all_goals (push_cast; omega)

theorem fseekCur_body (data : List Nat) (pos k : Nat) :
    fseekCur (((k + 4 : Nat) : Int) - 4) ⟨data, pos⟩ = .ok ⟨data, pos + k⟩ := by
  unfold fseekCur
  rw [if_neg (by push_cast; omega)]
  have ht : (((pos : Nat) : Int) + (((k + 4 : Nat) : Int) - 4)).toNat = pos + k := by omega
  rw [ht]

/-- C3 (amended): the indexer behind `index_next` performs no underflow
check at all.  Whenever the final segment of a chain claims a length larger
than the open visible record's residual, `mark` succeeds and returns the
underflowed (negative) new residual; the assembler `catrecord`, by
contrast, detects exactly this situation and fails with the Framing error
"underflow in cat-record". -/
theorem C3_mark_underflows_catrecord_frames (a : Nat) (b rest : List Nat) (r : Int)
    (fuel : Nat) (hfuel : 1 ≤ fuel) (ha : a < 256) (hsucc : a.testBit 5 = false)
    (hlen : b.length + 4 < 65536) (hr0 : 0 < r)
    (hru : r < ((b.length + 4 : Nat) : Int)) :
    mark fuel ⟨encodeSeg a b ++ rest, 0⟩ r =
      .ok ((⟨0, r, a.testBit 7⟩, r - ((b.length + 4 : Nat) : Int), []),
           ⟨encodeSeg a b ++ rest, b.length + 4⟩) ∧
    r - ((b.length + 4 : Nat) : Int) < 0 ∧
    catrecord fuel ⟨encodeSeg a b ++ rest, 0⟩ r =
      .error (.valueErr "underflow in cat-record") := by
  obtain ⟨fuel, rfl⟩ : ∃ f, fuel = f + 1 := ⟨fuel - 1, by omega⟩
  have hseg : segment_header ⟨encodeSeg a b ++ rest, 0⟩ =
      .ok (⟨a, ((b.length + 4 : Nat) : Int), 0⟩, ⟨encodeSeg a b ++ rest, 0 + 4⟩) :=
    segment_header_at _ [] b rest a 0 (by simp) rfl ha hlen
  simp only [Nat.zero_add] at hseg
  have hseek := fseekCur_body (encodeSeg a b ++ rest) 4 b.length
  refine ⟨?_, by omega, ?_⟩
  · unfold mark markLoop
    rw [if_pos hr0, hseg]
    dsimp only
    rw [hseek]
    dsimp only
    rw [show (dlis_segment_attributes a).has_successor = false from hsucc]
    simp [dlis_segment_attributes, Nat.add_comm]
  · unfold catrecord catLoop
    rw [if_pos hr0, hseg]
    dsimp only
    rw [if_pos (show r - ((b.length + 4 : Nat) : Int) < 0 by omega)]

/-- Witness for C3's amended theorem: the concrete `c3data` stream. -/
theorem C3_mark_underflows_catrecord_frames_witness :
    mark 1 ⟨c3data, 0⟩ 8 = .ok ((⟨0, 8, false⟩, -4, []), ⟨c3data, 12⟩) ∧
    (-4 : Int) < 0 ∧
    catrecord 1 ⟨c3data, 0⟩ 8 = .error (.valueErr "underflow in cat-record") := by
  have h := C3_mark_underflows_catrecord_frames 0 [0, 0, 0, 0, 0, 0, 0, 0] [] 8 1
    le_rfl (by decide) (by decide) (by decide) (by decide) (by decide)
  exact ⟨h.1, h.2.1, h.2.2⟩

/-- C4 (amended): `mark` copies the is_eflr flag of every segment of the
chain into the bookmark, each copy overwriting the previous one, and never
compares them: for any two-segment chain the returned flag is the second
segment's bit 7, regardless of the first segment's flags, and no
ChainMismatch error exists. -/
theorem C4_flag_overwritten_no_mismatch_check (a1 a2 : Nat) (b1 b2 rest : List Nat)
    (r : Int) (fuel : Nat) (hfuel : 2 ≤ fuel) (ha1 : a1 < 256) (ha2 : a2 < 256)
    (hs1 : a1.testBit 5 = true) (hs2 : a2.testBit 5 = false)
    (hl1 : b1.length + 4 < 65536) (hl2 : b2.length + 4 < 65536)
    (hr1 : ((b1.length + 4 : Nat) : Int) < r) :
    mark fuel ⟨encodeSeg a1 b1 ++ (encodeSeg a2 b2 ++ rest), 0⟩ r =
      .ok ((⟨0, r, a2.testBit 7⟩,
            r - ((b1.length + 4 : Nat) : Int) - ((b2.length + 4 : Nat) : Int), []),
           ⟨encodeSeg a1 b1 ++ (encodeSeg a2 b2 ++ rest),
            4 + b1.length + 4 + b2.length⟩) := by
  obtain ⟨f, rfl⟩ : ∃ f, fuel = f + 2 := ⟨fuel - 2, by omega⟩
  have hseg1 : segment_header ⟨encodeSeg a1 b1 ++ (encodeSeg a2 b2 ++ rest), 0⟩ =
      .ok (⟨a1, ((b1.length + 4 : Nat) : Int), 0⟩,
           ⟨encodeSeg a1 b1 ++ (encodeSeg a2 b2 ++ rest), 4⟩) := by
    have h := segment_header_at (encodeSeg a1 b1 ++ (encodeSeg a2 b2 ++ rest)) []
      b1 (encodeSeg a2 b2 ++ rest) a1 0 (by simp) rfl ha1 hl1
    simpa using h
  have hseek1 := fseekCur_body (encodeSeg a1 b1 ++ (encodeSeg a2 b2 ++ rest)) 4 b1.length
  have hseg2 : segment_header ⟨encodeSeg a1 b1 ++ (encodeSeg a2 b2 ++ rest), 4 + b1.length⟩ =
      .ok (⟨a2, ((b2.length + 4 : Nat) : Int), 0⟩,
           ⟨encodeSeg a1 b1 ++ (encodeSeg a2 b2 ++ rest), 4 + b1.length + 4⟩) :=
    segment_header_at _ (encodeSeg a1 b1) b2 rest a2 (4 + b1.length) rfl
      (by rw [encodeSeg_length]; omega) ha2 hl2
  have hseek2 := fseekCur_body (encodeSeg a1 b1 ++ (encodeSeg a2 b2 ++ rest))
    (4 + b1.length + 4) b2.length
  unfold mark markLoop
  rw [if_pos (show (0 : Int) < r by omega), hseg1]
  dsimp only
  rw [hseek1]
  dsimp only
  rw [if_pos (show (dlis_segment_attributes a1).has_successor = true from hs1)]
  unfold markLoop
  rw [if_pos (show (0 : Int) < r - ((b1.length + 4 : Nat) : Int) by omega), hseg2]
  dsimp only
  rw [hseek2]
  dsimp only
  rw [if_neg (show ¬(dlis_segment_attributes a2).has_successor = true from by
    rw [show (dlis_segment_attributes a2).has_successor = false from hs2]; simp)]
  simp [dlis_segment_attributes]

/-- Witness for C4's amended theorem: the concrete `c4data` stream. -/
theorem C4_flag_overwritten_no_mismatch_check_witness :
    mark 2 ⟨c4data, 0⟩ 16 = .ok ((⟨0, 16, false⟩, 0, []), ⟨c4data, 16⟩) := by
  have h := C4_flag_overwritten_no_mismatch_check 160 0 [9, 9, 9, 9] [7, 7, 7, 7] []
    16 2 le_rfl (by decide) (by decide) (by decide) (by decide) (by decide) (by decide)
    (by decide)
  exact h

/-- C5 (amended): the assembler decodes is_encrypted and then ignores it —
the segment body is appended to the returned buffer for every attribute
byte, the encrypted bit included, and no Encrypted error (nor any opt-in
parameter) exists anywhere in the interface. -/
theorem C5_encrypted_flag_ignored (a : Nat) (b : List Nat) (fuel : Nat)
    (hfuel : 1 ≤ fuel) (ha : a < 256) (hb : ∀ x ∈ b, x < 256)
    (hsucc : a.testBit 5 = false) (htl : a.testBit 1 = false)
    (hcs : a.testBit 2 = false) (hpad : a.testBit 0 = false)
    (hlen : b.length + 4 < 65536) :
    catrecord fuel ⟨encodeSeg a b, 0⟩ ((b.length + 4 : Nat) : Int) =
      .ok ((b, []), ⟨encodeSeg a b, 4 + b.length⟩) := by
  obtain ⟨f, rfl⟩ : ∃ f, fuel = f + 1 := ⟨fuel - 1, by omega⟩
  have hseg : segment_header ⟨encodeSeg a b, 0⟩ =
      .ok (⟨a, ((b.length + 4 : Nat) : Int), 0⟩, ⟨encodeSeg a b, 4⟩) := by
    have h := segment_header_at (encodeSeg a b) [] b [] a 0 (by simp) rfl ha hlen
    simpa using h
  unfold catrecord catLoop
  rw [if_pos (show (0 : Int) < ((b.length + 4 : Nat) : Int) by push_cast; omega), hseg]
  dsimp only
  rw [if_neg (show ¬((b.length + 4 : Nat) : Int) - ((b.length + 4 : Nat) : Int) < 0 by omega)]
  rw [if_neg (show ¬((b.length + 4 : Nat) : Int) < 4 by push_cast; omega)]
  rw [show (((b.length + 4 : Nat) : Int) - 4).toNat = b.length by omega]
  have hbody : getbytes b.length ⟨encodeSeg a b, 4⟩ =
      .ok (b, ⟨encodeSeg a b, 4 + b.length⟩) := by
    have h := getbytes_at (encodeSeg a b)
      [(b.length + 4) / 256, (b.length + 4) % 256, a, 0] b [] b.length 4
      (by simp [encodeSeg]) (by simp) rfl
    rw [map_mod_bytes b hb] at h
    exact h
  rw [hbody]
  dsimp only
  rw [List.nil_append]
  have hstrip : stripCat (dlis_segment_attributes a) b = .ok b := by
    unfold stripCat stripTL stripCS stripPad
    simp [show (dlis_segment_attributes a).has_trailing_length = false from htl,
          show (dlis_segment_attributes a).has_checksum = false from hcs,
          show (dlis_segment_attributes a).has_padding = false from hpad]
  rw [hstrip]
  dsimp only
  rw [if_neg (show ¬(dlis_segment_attributes a).has_successor = true from by
    rw [show (dlis_segment_attributes a).has_successor = false from hsucc]; simp)]

/-- Witness for C5's amended theorem: the concrete `c5data` stream, whose
attribute byte 0x10 has exactly is_encrypted set. -/
theorem C5_encrypted_flag_ignored_witness :
    catrecord 1 ⟨c5data, 0⟩ 8 = .ok (([1, 2, 3, 4], []), ⟨c5data, 8⟩) := by
  have h := C5_encrypted_flag_ignored 16 [1, 2, 3, 4] 1 le_rfl (by decide) (by decide)
    (by decide) (by decide) (by decide) (by decide) (by decide)
  exact h

theorem eraseEnd_append (n : Nat) (cat0 body : List Nat) (hn : n ≤ body.length) :
    eraseEnd n (cat0 ++ body) = .ok (cat0 ++ body.take (body.length - n)) := by
  unfold eraseEnd
  rw [if_pos (by simp; omega)]
  congr 1
  have h1 : (cat0 ++ body).length - n = cat0.length + (body.length - n) := by
    simp; omega
  rw [h1, List.take_append]

theorem stripTL_append (a : Nat) (cat0 body : List Nat)
    (h : a.testBit 1 = true → 2 ≤ body.length) :
    stripTL (dlis_segment_attributes a) (cat0 ++ body) =
      .ok (cat0 ++ (if a.testBit 1 then body.take (body.length - 2) else body)) := by
  unfold stripTL
  have hc : (dlis_segment_attributes a).has_trailing_length = a.testBit 1 := rfl
  by_cases hb : a.testBit 1 = true
  · simp only [hc, hb, if_true]
    exact eraseEnd_append 2 cat0 body (h hb)
  · simp [hc, hb]

theorem stripCS_append (a : Nat) (cat0 body : List Nat)
    (h : a.testBit 2 = true → 2 ≤ body.length) :
    stripCS (dlis_segment_attributes a) (cat0 ++ body) =
      .ok (cat0 ++ (if a.testBit 2 then body.take (body.length - 2) else body)) := by
  unfold stripCS
  have hc : (dlis_segment_attributes a).has_checksum = a.testBit 2 := rfl
  by_cases hb : a.testBit 2 = true
  · simp only [hc, hb, if_true]
    exact eraseEnd_append 2 cat0 body (h hb)
  · simp [hc, hb]

theorem stripPad_append (a : Nat) (cat0 body : List Nat)
    (hne : a.testBit 0 = true → body ≠ [])
    (hfit : a.testBit 0 = true → body.getLastD 0 ≤ body.length) :
    stripPad (dlis_segment_attributes a) (cat0 ++ body) =
      .ok (cat0 ++ (if a.testBit 0 then
        body.take (body.length - body.getLastD 0) else body)) := by
  unfold stripPad
  have hc : (dlis_segment_attributes a).has_padding = a.testBit 0 := rfl
  by_cases hb : a.testBit 0 = true
  · obtain ⟨y, hy⟩ : ∃ y, body.getLast? = some y := by
      cases hL : body.getLast? with
      | none => exact absurd (List.getLast?_eq_none_iff.mp hL) (hne hb)
      | some y => exact ⟨y, rfl⟩
    have hcatlast : (cat0 ++ body).getLast? = some y := by
      simp [List.getLast?_append, hy]
    have hD : body.getLastD 0 = y := by
      rw [List.getLastD_eq_getLast?, hy]; rfl
    simp only [hc, hb, if_true, hcatlast]
    rw [eraseEnd_append y cat0 body (by rw [← hD]; exact hfit hb)]
    rw [hD]
  · simp [hc, hb]

theorem take_sub_take (l : List Nat) (m k : Nat) :
    (l.take (l.length - m)).take ((l.take (l.length - m)).length - k) =
      l.take (l.length - (m + k)) := by
  rw [List.take_take]
  congr 1
  simp [List.length_take]
  omega

theorem stripCat_append (a : Nat) (cat0 body : List Nat)
    (h1 : tlcs a < body.length) (h2 : tlcs a + padOf a body ≤ body.length) :
    stripCat (dlis_segment_attributes a) (cat0 ++ body) =
      .ok (cat0 ++ stripSeg a body) := by
  have hb1eq : (if a.testBit 1 then body.take (body.length - 2) else body) =
      body.take (body.length - (if a.testBit 1 then 2 else 0)) := by
    by_cases hb : a.testBit 1 = true <;> simp [hb]
  have htl2 : a.testBit 1 = true → 2 ≤ body.length := by
    intro hb; unfold tlcs at h1; rw [hb] at h1; simp at h1; omega
  have hcs2 : a.testBit 2 = true →
      2 ≤ (body.take (body.length - (if a.testBit 1 then 2 else 0))).length := by
    intro hb
    unfold tlcs at h1
    rw [hb] at h1
    simp only [List.length_take]
    by_cases hb1 : a.testBit 1 = true <;> simp [hb1] at h1 ⊢ <;> omega
  have hb2eq : (if a.testBit 2 then
        (body.take (body.length - (if a.testBit 1 then 2 else 0))).take
          ((body.take (body.length - (if a.testBit 1 then 2 else 0))).length - 2)
      else body.take (body.length - (if a.testBit 1 then 2 else 0))) =
      body.take (body.length - tlcs a) := by
    by_cases hb2 : a.testBit 2 = true
    · rw [if_pos hb2, take_sub_take]
      congr 1
      unfold tlcs
      rw [if_pos hb2]
    · rw [if_neg hb2]
      congr 1
      unfold tlcs
      rw [if_neg hb2]
      omega
  have hb2len : (body.take (body.length - tlcs a)).length = body.length - tlcs a := by
    simp [List.length_take]
  have hb2ne : a.testBit 0 = true → body.take (body.length - tlcs a) ≠ [] := by
    intro _
    have hlen0 : (body.take (body.length - tlcs a)).length ≠ 0 := by rw [hb2len]; omega
    intro hcon
    exact hlen0 (by rw [hcon]; rfl)
  have hb2fit : a.testBit 0 = true →
      (body.take (body.length - tlcs a)).getLastD 0 ≤
        (body.take (body.length - tlcs a)).length := by
    intro hb
    rw [hb2len]
    have hpOf : padOf a body = (body.take (body.length - tlcs a)).getLastD 0 := by
      unfold padOf; rw [if_pos hb]
    omega
  unfold stripCat
  rw [stripTL_append a cat0 body htl2, hb1eq]
  dsimp only
  rw [stripCS_append a cat0 _ hcs2, hb2eq]
  dsimp only
  rw [stripPad_append a cat0 _ hb2ne hb2fit]
  unfold stripSeg
  dsimp only
  rw [hb1eq, hb2eq]

theorem stripSeg_take_form (a : Nat) (body : List Nat) :
    stripSeg a body =
      (if a.testBit 0 then
        (body.take (body.length - tlcs a)).take
          ((body.take (body.length - tlcs a)).length -
            (body.take (body.length - tlcs a)).getLastD 0)
      else body.take (body.length - tlcs a)) := by
  have hb1eq : (if a.testBit 1 then body.take (body.length - 2) else body) =
      body.take (body.length - (if a.testBit 1 then 2 else 0)) := by
    by_cases hb : a.testBit 1 = true <;> simp [hb]
  have hb2eq : (if a.testBit 2 then
        (body.take (body.length - (if a.testBit 1 then 2 else 0))).take
          ((body.take (body.length - (if a.testBit 1 then 2 else 0))).length - 2)
      else body.take (body.length - (if a.testBit 1 then 2 else 0))) =
      body.take (body.length - tlcs a) := by
    by_cases hb2 : a.testBit 2 = true
    · rw [if_pos hb2, take_sub_take]
      congr 1
      unfold tlcs
      rw [if_pos hb2]
    · rw [if_neg hb2]
      congr 1
      unfold tlcs
      rw [if_neg hb2]
      omega
  unfold stripSeg
  dsimp only
  rw [hb1eq, hb2eq]

theorem stripSeg_length (a : Nat) (body : List Nat)
    (htlcs : tlcs a < body.length) (hfit : tlcs a + padOf a body ≤ body.length) :
    (stripSeg a body).length = body.length - stripCount (a, body) := by
  rw [stripSeg_take_form]
  unfold stripCount
  dsimp only
  by_cases hb0 : a.testBit 0 = true
  · rw [if_pos hb0]
    unfold padOf at hfit ⊢
    rw [if_pos hb0] at hfit ⊢
    simp only [List.length_take]
    omega
  · rw [if_neg hb0]
    unfold padOf
    rw [if_neg hb0]
    simp only [List.length_take]
    omega

theorem chainLen_nonneg (segs : List (Nat × List Nat)) : 0 ≤ chainLen segs := by
  unfold chainLen
  exact Int.natCast_nonneg _

theorem chainLen_cons (a : Nat) (body : List Nat) (tl : List (Nat × List Nat)) :
    chainLen ((a, body) :: tl) = ((body.length + 4 : Nat) : Int) + chainLen tl := by
  unfold chainLen
  push_cast
  simp

theorem encodeChain_cons (p : Nat × List Nat) (tl : List (Nat × List Nat)) :
    encodeChain (p :: tl) = encodeSeg p.1 p.2 ++ encodeChain tl := by
  simp [encodeChain]

theorem catLoop_chain (segs : List (Nat × List Nat)) :
    ∀ (fuel : Nat) (data cat : List Nat) (pos : Nat) (warns : List String),
      segs ≠ [] → (∀ p ∈ segs, segOk p) → chainFlags segs →
      segs.length ≤ fuel →
      data.drop pos = encodeChain segs → pos ≤ data.length →
      catLoop fuel ⟨data, pos⟩ cat (chainLen segs) warns =
        .ok ((cat ++ (segs.map (fun p => stripSeg p.1 p.2)).flatten, warns),
             ⟨data, data.length⟩) := by
  induction segs with
  | nil => intro _ _ _ _ _ hne; exact absurd rfl hne
  | cons hd tl ih =>
    intro fuel data cat pos warns _ hok hflags hfuel hdrop hpos
    obtain ⟨a, body⟩ := hd
    obtain ⟨f, rfl⟩ : ∃ f, fuel = f + 1 := ⟨fuel - 1, by simp at hfuel; omega⟩
    obtain ⟨ha, hlen, htlcs, hfit, hbytes⟩ := hok _ (List.mem_cons_self _ _)
    dsimp only at ha hlen htlcs hfit hbytes
    have hdata : data = data.take pos ++ (encodeSeg a body ++ encodeChain tl) := by
      conv_lhs => rw [← List.take_append_drop pos data]
      rw [hdrop, encodeChain_cons]
    have hpre : pos = (data.take pos).length := by
      rw [List.length_take]; omega
    have hdlen : data.length = pos + (body.length + 4) + (encodeChain tl).length := by
      have hc := congrArg List.length hdrop
      rw [List.length_drop, encodeChain_cons, List.length_append, encodeSeg_length] at hc
      dsimp only at hc
      omega
    have hclpos : (0 : Int) < chainLen ((a, body) :: tl) := by
      rw [chainLen_cons]
      have := chainLen_nonneg tl
      push_cast
      omega
    have hseg := segment_header_at data (data.take pos) body (encodeChain tl) a pos
      hdata hpre ha hlen
    unfold catLoop
    rw [if_pos hclpos, hseg]
    dsimp only
    rw [chainLen_cons]
    rw [if_neg (show ¬((body.length + 4 : Nat) : Int) + chainLen tl -
        ((body.length + 4 : Nat) : Int) < 0 from by
      have := chainLen_nonneg tl; omega)]
    rw [if_neg (show ¬((body.length + 4 : Nat) : Int) < 4 from by push_cast; omega)]
    rw [show ((((body.length + 4 : Nat) : Int)) - 4).toNat = body.length from by omega]
    have hdata2 : data = (data.take pos ++
        [(body.length + 4) / 256, (body.length + 4) % 256, a, 0]) ++
        (body ++ encodeChain tl) := by
      conv_lhs => rw [hdata]
      simp [encodeSeg, List.append_assoc]
    have hbody : getbytes body.length ⟨data, pos + 4⟩ =
        .ok (body, ⟨data, pos + 4 + body.length⟩) := by
      have h := getbytes_at data (data.take pos ++
          [(body.length + 4) / 256, (body.length + 4) % 256, a, 0]) body
          (encodeChain tl) body.length (pos + 4) hdata2
          (by rw [List.length_append, ← hpre]; rfl) rfl
      rw [map_mod_bytes body hbytes] at h
      exact h
    rw [hbody]
    dsimp only
    rw [stripCat_append a cat body htlcs hfit]
    dsimp only
    rw [show ((body.length + 4 : Nat) : Int) + chainLen tl -
        ((body.length + 4 : Nat) : Int) = chainLen tl from by ring]
    cases tl with
    | nil =>
      have hs : a.testBit 5 = false := hflags
      rw [if_neg (show ¬(dlis_segment_attributes a).has_successor = true from by
        rw [show (dlis_segment_attributes a).has_successor = a.testBit 5 from rfl, hs]
        simp)]
      have hend : pos + 4 + body.length = data.length := by
        simp [encodeChain] at hdlen; omega
      rw [hend]
      simp
    | cons q tq =>
      have hs : a.testBit 5 = true := hflags.1
      rw [if_pos (show (dlis_segment_attributes a).has_successor = true from hs)]
      have hdrop2 : data.drop (pos + 4 + body.length) = encodeChain (q :: tq) := by
        have hsplit : pos + 4 + body.length = pos + (4 + body.length) := by omega
        rw [hsplit, ← List.drop_drop, hdrop, encodeChain_cons]
        rw [show 4 + body.length = (encodeSeg a body).length from by
          rw [encodeSeg_length]; omega]
        exact List.drop_left _ _
      have hres := ih f data (cat ++ stripSeg a body) (pos + 4 + body.length) warns
        (by simp) (fun p hp => hok p (List.mem_cons_of_mem _ hp)) hflags.2
        (by simp at hfuel ⊢; omega) hdrop2 (by omega)
      rw [hres]
      simp [List.append_assoc]

theorem strip_sum_length (segs : List (Nat × List Nat))
    (hlen : ∀ p ∈ segs, (stripSeg p.1 p.2).length = p.2.length - stripCount p)
    (hcnt : ∀ p ∈ segs, stripCount p ≤ p.2.length) :
    (List.map List.length (segs.map (fun p => stripSeg p.1 p.2))).sum =
      (segs.map (fun p => p.2.length)).sum - (segs.map stripCount).sum := by
  induction segs with
  | nil => simp
  | cons hd tl ihs =>
    simp only [List.map_cons, List.sum_cons]
    rw [ihs (fun p hp => hlen p (List.mem_cons_of_mem _ hp))
        (fun p hp => hcnt p (List.mem_cons_of_mem _ hp))]
    rw [hlen hd (List.mem_cons_self _ _)]
    have h1 := hcnt hd (List.mem_cons_self _ _)
    have h2 : (tl.map stripCount).sum ≤ (tl.map (fun p => p.2.length)).sum :=
      List.sum_le_sum (fun p hp => hcnt p (List.mem_cons_of_mem _ hp))
    omega

/-- C6: for every well-formed successor-linked chain, the assembler strips
each segment body from the tail in source order — trailing length (2
bytes), then checksum (2 bytes), then padding (the last remaining byte P,
dropped together with the last P bytes) — and returns the concatenation of
the stripped bodies; consequently the final buffer length equals the sum
of the segment body lengths minus all stripped bytes. -/
theorem C6_strip_order_and_length (segs : List (Nat × List Nat)) (fuel : Nat)
    (hne : segs ≠ []) (hok : ∀ p ∈ segs, segOk p) (hflags : chainFlags segs)
    (hfuel : segs.length ≤ fuel) :
    catrecord fuel ⟨encodeChain segs, 0⟩ (chainLen segs) =
      .ok (((segs.map (fun p => stripSeg p.1 p.2)).flatten, []),
           ⟨encodeChain segs, (encodeChain segs).length⟩) ∧
    ((segs.map (fun p => stripSeg p.1 p.2)).flatten).length =
      (segs.map (fun p => p.2.length)).sum - (segs.map stripCount).sum := by
  constructor
  · have h := catLoop_chain segs fuel (encodeChain segs) [] 0 [] hne hok hflags hfuel
      (by simp) (by simp)
    simpa using h
  · have hlen : ∀ p ∈ segs, (stripSeg p.1 p.2).length = p.2.length - stripCount p := by
      intro p hp
      obtain ⟨a, body⟩ := p
      obtain ⟨_, _, htlcs, hfit, _⟩ := hok _ hp
      dsimp only at htlcs hfit ⊢
      exact stripSeg_length a body htlcs hfit
    have hcnt : ∀ p ∈ segs, stripCount p ≤ p.2.length := by
      intro p hp
      obtain ⟨_, _, htlcs, hfit, _⟩ := hok _ hp
      unfold stripCount
      omega
    rw [List.length_flatten]
    exact strip_sum_length segs hlen hcnt

/-- Witness for C6 at the concrete two-segment chain `c6segs` (trailing
length on the first segment, padding on the second). -/
theorem C6_strip_order_and_length_witness :
    (catrecord 2 ⟨encodeChain c6segs, 0⟩ (chainLen c6segs) =
      .ok (((c6segs.map (fun p => stripSeg p.1 p.2)).flatten, []),
           ⟨encodeChain c6segs, (encodeChain c6segs).length⟩) ∧
    ((c6segs.map (fun p => stripSeg p.1 p.2)).flatten).length =
      (c6segs.map (fun p => p.2.length)).sum - (c6segs.map stripCount).sum) :=
  C6_strip_order_and_length c6segs 2 (by decide) (by decide) (by decide) (by decide)

end DlisioModel
